import Mathlib

/-!
Shallow embedding of `fulcrum_gpx_convert.py`, a one-shot batch script that
reads GPX track files, matches each to a CSV row by date (the file stem), and
pushes the track geometry to a remote record API, rewriting the CSV geometry
column for rows whose remote update succeeded.

Floating-point coordinate values appear in the script only through their
decimal text rendering (Python f-string `f"{lon} {lat}"` and the JSON payload),
so a coordinate is embedded as the pair of rendered numeric strings.
HTTP traffic is embedded as an oracle (`ApiModel`) answering the two requests
the script makes, together with an explicit event trace recording, in order,
the directory scan and every GET/PATCH issued.
-/

/-- A coordinate as the script handles it: the rendered longitude and latitude
text, in this order (`[point.longitude, point.latitude]`). -/
abbrev Coord := String × String

/-- An opaque embedding of a JSON object of form field values
(`record_data.get("form_values", {})`): a finite key/value association. -/
abbrev FormValues := List (String × String)

/-- The JSON payload sent by the PATCH in `update_fulcrum_record`:
`{"record": {"form_values": ..., "geometry": {"type": ..., "coordinates": ...}}}`. -/
structure Payload where
  form_values : FormValues
  geomType : String
  coordinates : List Coord
deriving DecidableEq, Repr

/-- Observable external actions of a run: the directory scan (`glob`), and the
GET and PATCH requests of `update_fulcrum_record`. -/
inductive Event where
  | scan : Event
  | get : String → Event
  | patch : String → Payload → Event
deriving DecidableEq, Repr

/-- The remote answer to `requests.get(url)`: an HTTP status, and the
`form_values` entry of the returned record JSON when present
(`get_resp.json()["record"]` then `.get("form_values", {})`). -/
structure FetchResp where
  status : Nat
  form_values : Option FormValues

/-- Oracle for the remote API: the response to fetching a record id, and the
status code returned when a given payload is PATCHed to a record id. -/
structure ApiModel where
  fetchResp : String → FetchResp
  patchStatus : String → Payload → Nat

/-- `linestring_wkt(coords)`: `''` for an empty list, otherwise
`LINESTRING(...)` around `', '.join(f"{lon} {lat}" for lon, lat in coords)`. -/
def linestring_wkt (coords : List Coord) : String :=
  if coords = [] then ""
  else "LINESTRING(" ++ String.intercalate ", " (coords.map (fun c => c.1 ++ " " ++ c.2)) ++ ")"

/-- Python `str.strip()`: drop leading and trailing whitespace. -/
def pyStrip (s : String) : String :=
  ⟨((s.data.dropWhile Char.isWhitespace).reverse.dropWhile Char.isWhitespace).reverse⟩

/-- `read_api_token()`: the token file's stripped content if the file exists
and that content is nonempty; `none` embeds `sys.exit(1)`.  The argument is
the file's content, or `none` when `.fulcrum_api_token` is not a file. -/
def read_api_token (tokenFile : Option String) : Option String :=
  match tokenFile with
  | some content =>
    let token := pyStrip content
    if token ≠ "" then some token else none
  | none => none

/-- `update_fulcrum_record(record_id, coords, api_token)`: GET the record;
on non-200 report failure; otherwise PATCH a payload made of the fetched
`form_values` (defaulting to `{}`) and a `LineString` geometry carrying
`coords`; succeed exactly when the PATCH returns 200.  Returns the boolean
result together with the requests issued, in order. -/
def update_fulcrum_record (api : ApiModel) (record_id : String) (coords : List Coord) :
    Bool × List Event :=
  let get_resp := api.fetchResp record_id
  if get_resp.status ≠ 200 then
    (false, [Event.get record_id])
  else
    let payload : Payload :=
      { form_values := get_resp.form_values.getD []
        geomType := "LineString"
        coordinates := coords }
    if api.patchStatus record_id payload = 200 then
      (true, [Event.get record_id, Event.patch record_id payload])
    else
      (false, [Event.get record_id, Event.patch record_id payload])

/-- One step of building the `day_to_row` dict: given the map so far and the
pair `(i, row)` from `enumerate(rows)`, bind key `row[0]` to `(i, row[1])`
when `len(row) > max(day_idx, fulcrum_id_idx) = 1`, overwriting any earlier
binding of that key. -/
def day_to_row_step (m : String → Option (Nat × String)) (p : Nat × List String) :
    String → Option (Nat × String) :=
  if p.2.length > 1 then
    fun k => if k = p.2.getD 0 "" then some (p.1, p.2.getD 1 "") else m k
  else m

/-- The `day_to_row` dict of `main`: fold `day_to_row_step` over
`enumerate(rows)`, starting from the empty map. -/
def day_to_row (rows : List (List String)) : String → Option (Nat × String) :=
  rows.enum.foldl day_to_row_step (fun _ => none)

/-- Index of the last `'.'` in a character list, if any. -/
def lastDotIdx (cs : List Char) : Option Nat :=
  ((List.range cs.length).filter (fun i => cs.getD i ' ' = '.')).getLast?

/-- `PurePath.stem`: the file name minus its suffix, where the suffix starts at
the last dot only when that dot is neither the first nor the last character. -/
def stem (name : String) : String :=
  match lastDotIdx name.data with
  | none => name
  | some i => if 0 < i ∧ i + 1 < name.data.length then ⟨name.data.take i⟩ else name

/-- `list(gpx_dir.glob("*.gpx")) + list(gpx_dir.glob("*.GPX"))`: the directory
entries whose name ends in `.gpx`, followed by those whose name ends in
`.GPX` (glob patterns are matched case-sensitively). -/
def gpx_candidates (files : List String) : List String :=
  files.filter (fun f => ".gpx".data.isSuffixOf f.data)
    ++ files.filter (fun f => ".GPX".data.isSuffixOf f.data)

/-- `sorted(gpx_files)`: the candidate files in sorted name order; the order
in which the per-file loop runs. -/
def processing_order (files : List String) : List String :=
  (gpx_candidates files).mergeSort (fun a b => decide (a ≤ b))

/-- The mutable state of the per-file loop of `main`: the CSV data rows, the
`updated_count` counter, and the trace of external events so far. -/
structure LoopState where
  rows : List (List String)
  updated : Nat
  trace : List Event

/-- One iteration of the `for gpx_file in sorted(gpx_files)` loop: skip when
the stem has no lookup entry, when the matched `fulcrum_id` is empty, or when
the parsed coordinate list is empty; otherwise run `update_fulcrum_record`
and, on success, write the WKT text into the matched row's geometry cell
(only when the row is long enough) and increment `updated_count`. -/
def processFile (api : ApiModel) (lookup : String → Option (Nat × String))
    (geometry_idx : Nat) (parse : String → List Coord)
    (st : LoopState) (fname : String) : LoopState :=
  let date_str := stem fname
  match lookup date_str with
  | none => st
  | some (row_idx, fulcrum_id) =>
    if fulcrum_id = "" then st
    else
      let coords := parse fname
      if coords = [] then st
      else
        let r := update_fulcrum_record api fulcrum_id coords
        if r.1 then
          let wkt_geom := linestring_wkt coords
          let row := st.rows.getD row_idx []
          let rows' :=
            if row.length > geometry_idx then
              st.rows.set row_idx (row.set geometry_idx wkt_geom)
            else st.rows
          { rows := rows', updated := st.updated + 1, trace := st.trace ++ r.2 }
        else { st with trace := st.trace ++ r.2 }

/-- The whole environment `main` runs against: whether the GPX directory and
CSV file exist, the token file content, the CSV header and data rows, the
directory entries, the GPX parse result per file name
(`extract_linestring_from_gpx`), and the remote API oracle. -/
structure Config where
  gpxDirExists : Bool
  csvExists : Bool
  tokenFile : Option String
  header : List String
  rows : List (List String)
  files : List String
  parse : String → List Coord
  api : ApiModel

/-- Outcome of a run of `main`: the process exit code, the trace of external
events, the final in-memory rows, the final `updated_count`, and whether the
CSV file was rewritten at the end. -/
structure RunResult where
  exitCode : Nat
  trace : List Event
  rows : List (List String)
  updated : Nat
  saved : Bool
deriving Repr

/-- `main_run` embeds `main()`: check the directory and CSV exist, read the token, locate the
`geometry` column, build `day_to_row`, glob and sort the GPX files, run the
per-file loop, and rewrite the CSV iff `updated_count > 0`.  Each failed
precondition is `sys.exit(1)` before any scan or network event. -/
def main_run (cfg : Config) : RunResult :=
  if !cfg.gpxDirExists then ⟨1, [], cfg.rows, 0, false⟩
  else if !cfg.csvExists then ⟨1, [], cfg.rows, 0, false⟩
  else
    match read_api_token cfg.tokenFile with
    | none => ⟨1, [], cfg.rows, 0, false⟩
    | some _api_token =>
      match cfg.header.findIdx? (· = "geometry") with
      | none => ⟨1, [], cfg.rows, 0, false⟩
      | some geometry_idx =>
        let lookup := day_to_row cfg.rows
        let gpx_files := gpx_candidates cfg.files
        if gpx_files = [] then ⟨0, [Event.scan], cfg.rows, 0, false⟩
        else
          let final := (processing_order cfg.files).foldl
            (processFile cfg.api lookup geometry_idx cfg.parse)
            ⟨cfg.rows, 0, [Event.scan]⟩
          ⟨0, final.trace, final.rows, final.updated, decide (final.updated > 0)⟩

/-- Spec-side description of `', '.join`: pieces joined by a separator,
written as direct recursion (used to state the formatter's contract). -/
def join_with (sep : String) : List String → String
  | [] => ""
  | [x] => x
  | x :: y :: t => x ++ sep ++ join_with sep (y :: t)

/-- Char-level image of `join_with ", "`, for reasoning about the text. -/
def joinCharPieces : List (List Char) → List Char
  | [] => []
  | [p] => p
  | p :: q :: t => p ++ ',' :: ' ' :: joinCharPieces (q :: t)

/-- Spec-side splitter on the two-character separator `", "`, scanning left to
right (the inverse direction of `join_with ", "`). -/
def splitComma : List Char → List (List Char)
  | [] => [[]]
  | [c] => [[c]]
  | c :: d :: rest =>
    if c = ',' ∧ d = ' ' then [] :: splitComma rest
    else
      match splitComma (d :: rest) with
      | t :: ts => (c :: t) :: ts
      | [] => [[c]]

/-- Spec-side splitter on a single space character. -/
def splitSpace : List Char → List (List Char)
  | [] => [[]]
  | c :: rest =>
    if c = ' ' then [] :: splitSpace rest
    else
      match splitSpace rest with
      | t :: ts => (c :: t) :: ts
      | [] => [[c]]

/-- Spec-side reading of one `"<lon> <lat>"` piece: exactly two space-separated
tokens. -/
def parsePair (cs : List Char) : Option Coord :=
  match splitSpace cs with
  | [a, b] => some (⟨a⟩, ⟨b⟩)
  | _ => none

/-- Spec-side inverse of the formatter: the empty text denotes the empty
coordinate list; otherwise the text must be `LINESTRING(`…`)` and the inside
splits on `", "` into `"<lon> <lat>"` pairs. -/
def parse_linestring (s : String) : Option (List Coord) :=
  if s = "" then some []
  else if s.data.take 11 = "LINESTRING(".data ∧ s.data.getLast? = some ')' then
    ((s.data.drop 11).dropLast |> splitComma).mapM parsePair
  else none

theorem intercalate_go_eq (s : String) (as : List String) (a : String) :
    String.intercalate.go a s as = join_with s (a :: as) := by
  induction as generalizing a with
  | nil => simp [String.intercalate.go, join_with]
  | cons b bs ih =>
    rw [String.intercalate.go, ih]
    cases bs with
    | nil => simp [join_with, String.append_assoc]
    | cons c t => simp [join_with, String.append_assoc]

theorem intercalate_eq_join_with (s : String) (l : List String) :
    String.intercalate s l = join_with s l := by
  cases l with
  | nil => rfl
  | cons a as => rw [String.intercalate, intercalate_go_eq]

theorem join_with_data (l : List String) :
    (join_with ", " l).data = joinCharPieces (l.map String.data) := by
  induction l with
  | nil => rfl
  | cons x ys ih =>
    cases ys with
    | nil => rfl
    | cons y t =>
      simp only [List.map_cons] at ih ⊢
      rw [join_with, joinCharPieces, String.data_append, String.data_append,
        show (", " : String).data = [',', ' '] from rfl, ih]
      simp

theorem splitSpace_no_sep (a : List Char) (ha : ' ' ∉ a) : splitSpace a = [a] := by
  induction a with
  | nil => rfl
  | cons c t ih =>
    have hc : ¬ c = ' ' := fun h => ha (h ▸ List.mem_cons_self c t)
    rw [splitSpace, if_neg hc, ih (fun h => ha (List.mem_cons_of_mem _ h))]

theorem splitSpace_append (a b : List Char) (ha : ' ' ∉ a) :
    splitSpace (a ++ ' ' :: b) = a :: splitSpace b := by
  induction a with
  | nil => simp [splitSpace]
  | cons c t ih =>
    have hc : ¬ c = ' ' := fun h => ha (h ▸ List.mem_cons_self c t)
    rw [List.cons_append, splitSpace, if_neg hc,
      ih (fun h => ha (List.mem_cons_of_mem _ h))]

theorem splitComma_no_sep (p : List Char) (hp : ',' ∉ p) : splitComma p = [p] := by
  induction p with
  | nil => rfl
  | cons c t ih =>
    have hc : ¬ c = ',' := fun h => hp (h ▸ List.mem_cons_self c t)
    cases t with
    | nil => rfl
    | cons d r =>
      rw [splitComma, if_neg (fun h => hc h.1),
        ih (fun h => hp (List.mem_cons_of_mem _ h))]

theorem splitComma_append (p rest : List Char) (hp : ',' ∉ p) :
    splitComma (p ++ ',' :: ' ' :: rest) = p :: splitComma rest := by
  induction p with
  | nil => rw [List.nil_append, splitComma, if_pos ⟨rfl, rfl⟩]
  | cons c t ih =>
    have hc : ¬ c = ',' := fun h => hp (h ▸ List.mem_cons_self c t)
    have ih' := ih (fun h => hp (List.mem_cons_of_mem _ h))
    cases t with
    | nil =>
      simp only [List.cons_append, List.nil_append] at ih' ⊢
      rw [splitComma, if_neg (fun h => hc h.1), ih']
    | cons d r =>
      simp only [List.cons_append] at ih' ⊢
      rw [splitComma, if_neg (fun h => hc h.1), ih']

theorem parsePair_piece (a b : String) (ha : ' ' ∉ a.data) (hb : ' ' ∉ b.data) :
    parsePair (a ++ " " ++ b).data = some (a, b) := by
  have hdata : (a ++ " " ++ b).data = a.data ++ ' ' :: b.data := by
    rw [String.data_append, String.data_append]
    simp [show (" " : String).data = [' '] from rfl]
  rw [parsePair, hdata, splitSpace_append a.data b.data ha, splitSpace_no_sep b.data hb]

theorem mapM_parsePair_pieces (C : List Coord)
    (h : ∀ c ∈ C, ' ' ∉ (c.1 : String).data ∧ ' ' ∉ (c.2 : String).data) :
    (C.map (fun c => (c.1 ++ " " ++ c.2).data)).mapM parsePair = some C := by
  induction C with
  | nil => rfl
  | cons c t ih =>
    simp only [List.map_cons, List.mapM_cons]
    rw [parsePair_piece c.1 c.2 (h c (List.mem_cons_self c t)).1 (h c (List.mem_cons_self c t)).2,
      ih (fun x hx => h x (List.mem_cons_of_mem _ hx))]
    rfl

theorem splitComma_joinCharPieces (ps : List (List Char)) (h : ∀ p ∈ ps, ',' ∉ p) :
    ps ≠ [] → splitComma (joinCharPieces ps) = ps := by
  induction ps with
  | nil => intro h'; exact absurd rfl h'
  | cons p t ih =>
    intro _
    cases t with
    | nil => exact splitComma_no_sep p (h p (List.mem_cons_self p []))
    | cons q r =>
      rw [joinCharPieces, splitComma_append p _ (h p (List.mem_cons_self p _)),
        ih (fun x hx => h x (List.mem_cons_of_mem _ hx)) (by simp)]

theorem wkt_data (C : List Coord) (hC : C ≠ []) :
    (linestring_wkt C).data =
      "LINESTRING(".data
        ++ joinCharPieces (C.map (fun c => (c.1 ++ " " ++ c.2).data)) ++ [')'] := by
  rw [linestring_wkt, if_neg hC, intercalate_eq_join_with]
  rw [String.data_append, String.data_append, join_with_data, List.map_map]
  rfl

theorem joinCharPieces_cons (p : List Char) (t : List (List Char)) :
    ∃ z, joinCharPieces (p :: t) = p ++ z := by
  cases t with
  | nil => exact ⟨[], by simp [joinCharPieces]⟩
  | cons q r => exact ⟨_, rfl⟩

/-- C3: the geometry formatter returns the empty string on the empty sequence
(never the string `"LINESTRING()"`), and on a nonempty sequence returns
`"LINESTRING("` followed by the coordinates rendered `"<lon> <lat>"` and
joined by `", "`, followed by `")"`. -/
theorem linestring_wkt_format (coords : List Coord) :
    linestring_wkt [] = ""
    ∧ (coords ≠ [] →
        linestring_wkt coords =
          "LINESTRING(" ++ join_with ", " (coords.map (fun c => c.1 ++ " " ++ c.2)) ++ ")")
    ∧ linestring_wkt coords ≠ "LINESTRING()" := by
  refine ⟨rfl, ?_, ?_⟩
  · intro hne
    rw [linestring_wkt, if_neg hne, intercalate_eq_join_with]
  · by_cases hC : coords = []
    · subst hC; decide
    · intro heq
      have hdata := wkt_data coords hC
      rw [heq, show ("LINESTRING()" : String).data = "LINESTRING(".data ++ [')'] by decide,
        List.append_assoc] at hdata
      have hmid := List.append_cancel_left hdata
      obtain ⟨c, t, rfl⟩ : ∃ c t, coords = c :: t := by
        cases coords with
        | nil => exact absurd rfl hC
        | cons c t => exact ⟨c, t, rfl⟩
      obtain ⟨z, hz⟩ := joinCharPieces_cons ((c.1 ++ " " ++ c.2).data)
        (t.map (fun c => (c.1 ++ " " ++ c.2).data))
      rw [List.map_cons, hz] at hmid
      have hlen := congrArg List.length hmid
      have hsp : (c.1 ++ " " ++ c.2).data = c.1.data ++ ' ' :: c.2.data := by
        rw [String.data_append, String.data_append]
        simp [show (" " : String).data = [' '] from rfl]
      rw [hsp] at hlen
      simp [List.length_append] at hlen
      omega

/-- C3 witness: the formatter evaluated at a concrete one-point sequence. -/
theorem linestring_wkt_format_witness :
    linestring_wkt [("-122.5", "37.75")] = "LINESTRING(-122.5 37.75)"
    ∧ linestring_wkt [("-122.5", "37.75")] ≠ "LINESTRING()" := by
  have h := linestring_wkt_format [("-122.5", "37.75")]
  refine ⟨?_, h.2.2⟩
  rw [h.2.1 (by decide)]
  decide

/-- C4: formatting a coordinate sequence and then parsing the coordinate list
back out of the produced text yields the same ordered (lon, lat) pairs.  The
hypothesis records that coordinate tokens are rendered numbers: no space and
no comma occurs in a token (true of every Python float rendering). -/
theorem linestring_roundtrip (C : List Coord)
    (h : ∀ c ∈ C, (' ' ∉ (c.1 : String).data ∧ ',' ∉ (c.1 : String).data)
        ∧ (' ' ∉ (c.2 : String).data ∧ ',' ∉ (c.2 : String).data)) :
    parse_linestring (linestring_wkt C) = some C := by
  by_cases hC : C = []
  · subst hC; rfl
  · have hdata := wkt_data C hC
    have hne : linestring_wkt C ≠ "" := by
      intro h0
      have hlen := congrArg List.length hdata
      rw [h0, show ("" : String).data = ([] : List Char) from rfl] at hlen
      simp [List.length_append] at hlen
    have hpre : (linestring_wkt C).data.take 11 = "LINESTRING(".data := by
      rw [hdata, List.append_assoc, show (11 : Nat) = "LINESTRING(".data.length from rfl]
      exact List.take_left _ _
    have hlast : (linestring_wkt C).data.getLast? = some ')' := by
      rw [hdata]
      exact List.getLast?_concat _
    have hdrop : ((linestring_wkt C).data.drop 11).dropLast
        = joinCharPieces (C.map (fun c => (c.1 ++ " " ++ c.2).data)) := by
      rw [hdata, List.append_assoc, show (11 : Nat) = "LINESTRING(".data.length from rfl,
        List.drop_left, List.dropLast_concat]
    have hcomma : ∀ p ∈ C.map (fun c => (c.1 ++ " " ++ c.2).data), ',' ∉ p := by
      intro p hp
      rcases List.mem_map.mp hp with ⟨c, hc, rfl⟩
      have hsp : (c.1 ++ " " ++ c.2).data = c.1.data ++ ' ' :: c.2.data := by
        rw [String.data_append, String.data_append]
        simp [show (" " : String).data = [' '] from rfl]
      rw [hsp]
      intro hmem
      rcases List.mem_append.mp hmem with h1 | h2
      · exact (h c hc).1.2 h1
      · rcases List.mem_cons.mp h2 with h3 | h4
        · exact absurd h3 (by decide)
        · exact (h c hc).2.2 h4
    rw [parse_linestring, if_neg hne, if_pos ⟨hpre, hlast⟩, hdrop,
      splitComma_joinCharPieces _ hcomma (by simp [hC])]
    exact mapM_parsePair_pieces C (fun c hc => ⟨(h c hc).1.1, (h c hc).2.1⟩)

/-- C4 witness: round trip evaluated at a concrete two-point sequence. -/
theorem linestring_roundtrip_witness :
    parse_linestring (linestring_wkt [("-122.5", "37.75"), ("-122.41", "37.8")])
      = some [("-122.5", "37.75"), ("-122.41", "37.8")] :=
  linestring_roundtrip [("-122.5", "37.75"), ("-122.41", "37.8")] (by decide)

/-- Test fixture: a remote API where every fetch returns 200 carrying one form
value and every PATCH returns 200. -/
def apiOK : ApiModel :=
  { fetchResp := fun _ => { status := 200, form_values := some [("field1", "val1")] }
    patchStatus := fun _ _ => 200 }

/-- Test fixture: every fetch returns 404. -/
def apiFetchFail : ApiModel :=
  { fetchResp := fun _ => { status := 404, form_values := none }
    patchStatus := fun _ _ => 200 }

/-- Test fixture: every fetch returns 200 but every PATCH returns 422. -/
def apiPatchFail : ApiModel :=
  { fetchResp := fun _ => { status := 200, form_values := some [("field1", "val1")] }
    patchStatus := fun _ _ => 422 }

/-- C1: on a successful fetch, `update_fulcrum_record` issues exactly the GET
for the record followed by the PATCH whose payload carries the fetched form
values verbatim and a `"LineString"` geometry holding exactly the given
coordinate pairs in order; the GET precedes the PATCH. -/
theorem update_record_read_modify_write (api : ApiModel) (record_id : String)
    (coords : List Coord) (fv : FormValues)
    (hstatus : (api.fetchResp record_id).status = 200)
    (hfv : (api.fetchResp record_id).form_values = some fv) :
    (update_fulcrum_record api record_id coords).2 =
      [Event.get record_id,
       Event.patch record_id { form_values := fv, geomType := "LineString", coordinates := coords }] := by
  rw [update_fulcrum_record]
  simp only [hstatus, hfv, ne_eq, not_true_eq_false, if_false, Option.getD_some]
  split <;> rfl

/-- C1 witness: the request trace at a concrete record and coordinates. -/
theorem update_record_read_modify_write_witness :
    (update_fulcrum_record apiOK "rec-1" [("1.5", "2.5")]).2 =
      [Event.get "rec-1",
       Event.patch "rec-1"
         { form_values := [("field1", "val1")], geomType := "LineString",
           coordinates := [("1.5", "2.5")] }] :=
  update_record_read_modify_write apiOK "rec-1" [("1.5", "2.5")] [("field1", "val1")] rfl rfl

theorem day_to_row_step_skip (l : List (Nat × List String))
    (m : String → Option (Nat × String)) (k : String)
    (h : ∀ p ∈ l, p.2.length > 1 → p.2.getD 0 "" ≠ k) :
    (l.foldl day_to_row_step m) k = m k := by
  induction l generalizing m with
  | nil => rfl
  | cons p t ih =>
    rw [List.foldl_cons, ih _ (fun q hq => h q (List.mem_cons_of_mem _ hq))]
    rw [day_to_row_step]
    by_cases hp : p.2.length > 1
    · rw [if_pos hp, if_neg (fun hk => h p (List.mem_cons_self _ _) hp hk.symm)]
    · rw [if_neg hp]

/-- C8: the last table row bearing a given date key determines the lookup
entry: if `row` carries key `k` (and is long enough to be indexed) and no
later row binds `k`, the lookup at `k` returns `row`'s position and id,
whatever the earlier rows said — earlier duplicates are shadowed. -/
theorem day_to_row_last_wins (rows₁ rows₂ : List (List String)) (row : List String)
    (k : String) (hlen : row.length > 1) (hkey : row.getD 0 "" = k)
    (h2 : ∀ r ∈ rows₂, r.length > 1 → r.getD 0 "" ≠ k) :
    day_to_row (rows₁ ++ row :: rows₂) k = some (rows₁.length, row.getD 1 "") := by
  have hskip : ∀ p ∈ List.enumFrom (rows₁.length + 1) rows₂,
      p.2.length > 1 → p.2.getD 0 "" ≠ k := by
    intro p hp
    exact h2 p.2 (List.snd_mem_of_mem_enumFrom hp)
  subst hkey
  rw [day_to_row, List.enum_append, List.foldl_append, List.enumFrom_cons,
    List.foldl_cons, day_to_row_step_skip _ _ _ hskip, day_to_row_step, if_pos hlen]
  simp

/-- C8 witness: two rows sharing the key `d1`; the lookup returns the second
row's position and id. -/
theorem day_to_row_last_wins_witness :
    day_to_row ([["d1", "idA", "g"]] ++ ["d1", "idB", "g2"] :: [["d2", "idC"]]) "d1"
      = some (1, "idB") :=
  day_to_row_last_wins [["d1", "idA", "g"]] [["d2", "idC"]] ["d1", "idB", "g2"] "d1"
    (by decide) (by decide) (by decide)

/-- C5: for a matched file with a nonempty track whose remote fetch or whose
PATCH returns a non-success status, the loop step leaves the rows and the
update counter unchanged, and the loop goes on to fold the remaining files
(the run is not aborted). -/
theorem remote_failure_skips (api : ApiModel) (lookup : String → Option (Nat × String))
    (geometry_idx : Nat) (parse : String → List Coord) (st : LoopState)
    (fname : String) (row_idx : Nat) (fulcrum_id : String) (rest : List String)
    (hmatch : lookup (stem fname) = some (row_idx, fulcrum_id))
    (hid : fulcrum_id ≠ "")
    (hcoords : parse fname ≠ [])
    (hfail : (api.fetchResp fulcrum_id).status ≠ 200 ∨
      api.patchStatus fulcrum_id
        { form_values := (api.fetchResp fulcrum_id).form_values.getD []
          geomType := "LineString", coordinates := parse fname } ≠ 200) :
    (processFile api lookup geometry_idx parse st fname).rows = st.rows
    ∧ (processFile api lookup geometry_idx parse st fname).updated = st.updated
    ∧ (fname :: rest).foldl (processFile api lookup geometry_idx parse) st
        = rest.foldl (processFile api lookup geometry_idx parse)
            (processFile api lookup geometry_idx parse st fname) := by
  have hr : (update_fulcrum_record api fulcrum_id (parse fname)).1 = false := by
    rcases hfail with h | h
    · simp [update_fulcrum_record, h]
    · by_cases hs : (api.fetchResp fulcrum_id).status = 200
      · simp [update_fulcrum_record, hs, h]
      · simp [update_fulcrum_record, hs]
  refine ⟨?_, ?_, List.foldl_cons _ _⟩ <;>
    simp [processFile, hmatch, hid, hcoords, hr]

/-- C5 witness: a failing fetch at a concrete matched file leaves the row and
the counter as they were. -/
theorem remote_failure_skips_witness :
    (processFile apiFetchFail (day_to_row [["d1", "rec-1", "old"]]) 2
      (fun _ => [("1.5", "2.5")])
      { rows := [["d1", "rec-1", "old"]], updated := 0, trace := [Event.scan] }
      "d1.gpx").rows = [["d1", "rec-1", "old"]]
    ∧ (processFile apiFetchFail (day_to_row [["d1", "rec-1", "old"]]) 2
      (fun _ => [("1.5", "2.5")])
      { rows := [["d1", "rec-1", "old"]], updated := 0, trace := [Event.scan] }
      "d1.gpx").updated = 0 := by
  have h := remote_failure_skips apiFetchFail (day_to_row [["d1", "rec-1", "old"]]) 2
    (fun _ => [("1.5", "2.5")])
    { rows := [["d1", "rec-1", "old"]], updated := 0, trace := [Event.scan] }
    "d1.gpx" 0 "rec-1" [] (by decide) (by decide) (by decide) (Or.inl (by decide))
  exact ⟨h.1, h.2.1⟩

/-- C6: a file with no matching date key, with an empty matched id, or with an
empty parsed track leaves the loop state entirely unchanged — in particular
no GET or PATCH is traced for it — and a run whose fatal preconditions all
hold finishes with exit code 0. -/
theorem skip_conditions_no_call (cfg : Config) (st : LoopState) (fname : String)
    (geometry_idx : Nat) (tok : String)
    (hdir : cfg.gpxDirExists = true) (hcsv : cfg.csvExists = true)
    (htok : read_api_token cfg.tokenFile = some tok)
    (hgeo : cfg.header.findIdx? (· = "geometry") = some geometry_idx)
    (hskip : day_to_row cfg.rows (stem fname) = none
      ∨ (∃ i, day_to_row cfg.rows (stem fname) = some (i, ""))
      ∨ cfg.parse fname = []) :
    processFile cfg.api (day_to_row cfg.rows) geometry_idx cfg.parse st fname = st
    ∧ (main_run cfg).exitCode = 0 := by
  constructor
  · rcases hskip with h | ⟨i, h⟩ | h
    · simp [processFile, h]
    · simp [processFile, h]
    · rw [processFile]
      cases hm : day_to_row cfg.rows (stem fname) with
      | none => rfl
      | some v =>
        rcases v with ⟨i, fid⟩
        by_cases hf : fid = ""
        · simp [hf]
        · simp [hf, h]
  · rw [main_run]
    simp only [hdir, hcsv, htok, hgeo, Bool.not_true, Bool.false_eq_true, if_false]
    split <;> rfl

/-- C6 witness: a concrete file whose date key is absent from the table makes
no API call, changes nothing, and the run exits 0. -/
theorem skip_conditions_no_call_witness :
    processFile apiOK
        (day_to_row [["d1", "rec-1", "old"]]) 2 (fun _ => [("1.5", "2.5")])
        { rows := [["d1", "rec-1", "old"]], updated := 0, trace := [Event.scan] } "d2.gpx"
      = { rows := [["d1", "rec-1", "old"]], updated := 0, trace := [Event.scan] }
    ∧ (main_run
        { gpxDirExists := true, csvExists := true, tokenFile := some "tok"
          header := ["day", "fulcrum_id", "geometry"]
          rows := [["d1", "rec-1", "old"]]
          files := ["d2.gpx"]
          parse := fun _ => [("1.5", "2.5")]
          api := apiOK }).exitCode = 0 :=
  skip_conditions_no_call
    { gpxDirExists := true, csvExists := true, tokenFile := some "tok"
      header := ["day", "fulcrum_id", "geometry"]
      rows := [["d1", "rec-1", "old"]]
      files := ["d2.gpx"]
      parse := fun _ => [("1.5", "2.5")]
      api := apiOK }
    { rows := [["d1", "rec-1", "old"]], updated := 0, trace := [Event.scan] }
    "d2.gpx" 2 "tok" rfl rfl (by decide) (by decide) (Or.inl (by decide))

theorem main_run_single_success (cfg : Config) (fname : String) (tok : String)
    (geometry_idx row_idx : Nat) (fulcrum_id : String)
    (hdir : cfg.gpxDirExists = true) (hcsv : cfg.csvExists = true)
    (htok : read_api_token cfg.tokenFile = some tok)
    (hgeo : cfg.header.findIdx? (· = "geometry") = some geometry_idx)
    (hfiles : gpx_candidates cfg.files = [fname])
    (hmatch : day_to_row cfg.rows (stem fname) = some (row_idx, fulcrum_id))
    (hid : fulcrum_id ≠ "") (hcoords : cfg.parse fname ≠ [])
    (hfetch : (cfg.api.fetchResp fulcrum_id).status = 200)
    (hpatch : cfg.api.patchStatus fulcrum_id
      { form_values := (cfg.api.fetchResp fulcrum_id).form_values.getD []
        geomType := "LineString", coordinates := cfg.parse fname } = 200) :
    main_run cfg =
      { exitCode := 0
        trace := [Event.scan, Event.get fulcrum_id,
          Event.patch fulcrum_id
            { form_values := (cfg.api.fetchResp fulcrum_id).form_values.getD []
              geomType := "LineString", coordinates := cfg.parse fname }]
        rows := if (cfg.rows.getD row_idx []).length > geometry_idx then
            cfg.rows.set row_idx
              ((cfg.rows.getD row_idx []).set geometry_idx (linestring_wkt (cfg.parse fname)))
          else cfg.rows
        updated := 1
        saved := true } := by
  have hupd : update_fulcrum_record cfg.api fulcrum_id (cfg.parse fname)
      = (true, [Event.get fulcrum_id, Event.patch fulcrum_id
          { form_values := (cfg.api.fetchResp fulcrum_id).form_values.getD []
            geomType := "LineString", coordinates := cfg.parse fname }]) := by
    simp [update_fulcrum_record, hfetch, hpatch]
  have hord : processing_order cfg.files = [fname] := by
    rw [processing_order, hfiles, List.mergeSort_singleton]
  have hstep : processFile cfg.api (day_to_row cfg.rows) geometry_idx cfg.parse
      { rows := cfg.rows, updated := 0, trace := [Event.scan] } fname
      = { rows := if (cfg.rows.getD row_idx []).length > geometry_idx then
              cfg.rows.set row_idx
                ((cfg.rows.getD row_idx []).set geometry_idx
                  (linestring_wkt (cfg.parse fname)))
            else cfg.rows
          updated := 1
          trace := [Event.scan, Event.get fulcrum_id,
            Event.patch fulcrum_id
              { form_values := (cfg.api.fetchResp fulcrum_id).form_values.getD []
                geomType := "LineString", coordinates := cfg.parse fname }] } := by
    rw [processFile]
    simp only [hmatch, hupd, hid, hcoords, if_neg, ite_false]
    simp [hid, hcoords]
  rw [main_run]
  simp only [hdir, hcsv, htok, hgeo, Bool.not_true, Bool.false_eq_true, if_false,
    hfiles, hord, List.foldl_cons, List.foldl_nil, hstep]
  simp

/-- Test fixture: a complete single-file environment in which everything
succeeds; the matched row has a geometry cell at index 2. -/
def cfgOK : Config :=
  { gpxDirExists := true, csvExists := true, tokenFile := some "tok"
    header := ["day", "fulcrum_id", "geometry"]
    rows := [["d1", "rec-1", "old"]]
    files := ["d1.gpx"]
    parse := fun _ => [("1.5", "2.5"), ("3.25", "4.75")]
    api := apiOK }

/-- Test fixture: same as `cfgOK` but the matched row has only two cells, so
it has no geometry cell at index 2. -/
def cfgShortRow : Config :=
  { gpxDirExists := true, csvExists := true, tokenFile := some "tok"
    header := ["day", "fulcrum_id", "geometry"]
    rows := [["d1", "rec-1"]]
    files := ["d1.gpx"]
    parse := fun _ => [("1.5", "2.5")]
    api := apiOK }

/-- C2: for a run over one candidate file whose date key matches a row, whose
track parses to a nonempty point list, and whose fetch and PATCH succeed, the
matched row's geometry cell afterwards equals the formatted geometry of those
points in file order, the update counter is exactly 1, the row's other cells
are unchanged, and so is every other row. -/
theorem run_success_updates_row (cfg : Config) (fname : String) (tok : String)
    (geometry_idx row_idx : Nat) (fulcrum_id : String)
    (hdir : cfg.gpxDirExists = true) (hcsv : cfg.csvExists = true)
    (htok : read_api_token cfg.tokenFile = some tok)
    (hgeo : cfg.header.findIdx? (· = "geometry") = some geometry_idx)
    (hfiles : gpx_candidates cfg.files = [fname])
    (hmatch : day_to_row cfg.rows (stem fname) = some (row_idx, fulcrum_id))
    (hid : fulcrum_id ≠ "") (hcoords : cfg.parse fname ≠ [])
    (hfetch : (cfg.api.fetchResp fulcrum_id).status = 200)
    (hpatch : cfg.api.patchStatus fulcrum_id
      { form_values := (cfg.api.fetchResp fulcrum_id).form_values.getD []
        geomType := "LineString", coordinates := cfg.parse fname } = 200)
    (hrowlen : (cfg.rows.getD row_idx []).length > geometry_idx) :
    (main_run cfg).updated = 1
    ∧ ((main_run cfg).rows.getD row_idx []).getD geometry_idx ""
        = linestring_wkt (cfg.parse fname)
    ∧ (∀ j, j ≠ geometry_idx →
        ((main_run cfg).rows.getD row_idx []).getD j ""
          = (cfg.rows.getD row_idx []).getD j "")
    ∧ (∀ r, r ≠ row_idx → (main_run cfg).rows.getD r [] = cfg.rows.getD r []) := by
  have hlt : row_idx < cfg.rows.length := by
    by_contra hge
    have hnone : cfg.rows.getD row_idx [] = [] := by
      rw [List.getD_eq_getElem?_getD, List.getElem?_eq_none (by omega), Option.getD_none]
    rw [hnone] at hrowlen
    simp at hrowlen
  have hmain := main_run_single_success cfg fname tok geometry_idx row_idx fulcrum_id
    hdir hcsv htok hgeo hfiles hmatch hid hcoords hfetch hpatch
  have hrows : (main_run cfg).rows
      = cfg.rows.set row_idx
          ((cfg.rows.getD row_idx []).set geometry_idx (linestring_wkt (cfg.parse fname))) := by
    rw [hmain]
    exact if_pos hrowlen
  have hupdated : (main_run cfg).updated = 1 := by rw [hmain]
  have hrow : ((main_run cfg).rows.getD row_idx [])
      = (cfg.rows.getD row_idx []).set geometry_idx (linestring_wkt (cfg.parse fname)) := by
    rw [hrows, List.getD_eq_getElem?_getD, List.getElem?_set_self hlt, Option.getD_some]
  refine ⟨hupdated, ?_, ?_, ?_⟩
  · rw [hrow, List.getD_eq_getElem?_getD, List.getElem?_set_self hrowlen, Option.getD_some]
  · intro j hj
    rw [hrow, List.getD_eq_getElem?_getD, List.getElem?_set_ne (Ne.symm hj),
      ← List.getD_eq_getElem?_getD]
  · intro r hr
    rw [hrows, List.getD_eq_getElem?_getD, List.getElem?_set_ne (Ne.symm hr),
      ← List.getD_eq_getElem?_getD]

/-- C2 witness: the concrete successful single-file run: counter 1, geometry
cell rewritten to the WKT of the parsed points, id cell untouched. -/
theorem run_success_updates_row_witness :
    (main_run cfgOK).updated = 1
    ∧ ((main_run cfgOK).rows.getD 0 []).getD 2 ""
        = linestring_wkt [("1.5", "2.5"), ("3.25", "4.75")]
    ∧ ((main_run cfgOK).rows.getD 0 []).getD 1 "" = "rec-1" := by
  have h := run_success_updates_row cfgOK "d1.gpx" "tok" 2 0 "rec-1" rfl rfl
    (by decide) (by decide) (by decide) (by decide) (by decide) (by decide)
    rfl rfl (by decide)
  refine ⟨h.1, h.2.1, ?_⟩
  rw [h.2.2.1 1 (by decide)]
  decide

/-- C10: when the remote update succeeds for a matched file but the matched
row is too short to hold the geometry column, the counter still increments:
the run reports one update while every row is left unchanged, and the CSV
file is rewritten anyway. -/
theorem run_short_row_still_counts (cfg : Config) (fname : String) (tok : String)
    (geometry_idx row_idx : Nat) (fulcrum_id : String)
    (hdir : cfg.gpxDirExists = true) (hcsv : cfg.csvExists = true)
    (htok : read_api_token cfg.tokenFile = some tok)
    (hgeo : cfg.header.findIdx? (· = "geometry") = some geometry_idx)
    (hfiles : gpx_candidates cfg.files = [fname])
    (hmatch : day_to_row cfg.rows (stem fname) = some (row_idx, fulcrum_id))
    (hid : fulcrum_id ≠ "") (hcoords : cfg.parse fname ≠ [])
    (hfetch : (cfg.api.fetchResp fulcrum_id).status = 200)
    (hpatch : cfg.api.patchStatus fulcrum_id
      { form_values := (cfg.api.fetchResp fulcrum_id).form_values.getD []
        geomType := "LineString", coordinates := cfg.parse fname } = 200)
    (hrowshort : ¬ (cfg.rows.getD row_idx []).length > geometry_idx) :
    (main_run cfg).updated = 1
    ∧ (main_run cfg).rows = cfg.rows
    ∧ (main_run cfg).saved = true := by
  have hmain := main_run_single_success cfg fname tok geometry_idx row_idx fulcrum_id
    hdir hcsv htok hgeo hfiles hmatch hid hcoords hfetch hpatch
  refine ⟨by rw [hmain], ?_, by rw [hmain]⟩
  rw [hmain]
  exact if_neg hrowshort

/-- C10 witness: the concrete run over a two-cell row with geometry column
index 2: counter 1, rows untouched, file rewritten. -/
theorem run_short_row_still_counts_witness :
    (main_run cfgShortRow).updated = 1
    ∧ (main_run cfgShortRow).rows = [["d1", "rec-1"]]
    ∧ (main_run cfgShortRow).saved = true := by
  have h := run_short_row_still_counts cfgShortRow "d1.gpx" "tok" 2 0 "rec-1" rfl rfl
    (by decide) (by decide) (by decide) (by decide) (by decide) (by decide)
    rfl rfl (by decide)
  exact ⟨h.1, h.2.1, h.2.2⟩

/-- C7: each fatal precondition — missing GPX directory, missing CSV file,
missing or empty credential file, missing `geometry` column — makes the run
exit with code 1 before any scan or network event, with the rows untouched
and the CSV not rewritten. -/
theorem fatal_preconditions_abort (cfg : Config)
    (h : cfg.gpxDirExists = false ∨ cfg.csvExists = false
      ∨ read_api_token cfg.tokenFile = none
      ∨ cfg.header.findIdx? (· = "geometry") = none) :
    main_run cfg
      = { exitCode := 1, trace := [], rows := cfg.rows, updated := 0, saved := false } := by
  rcases h with h | h | h | h
  · simp [main_run, h]
  · simp [main_run, h]
  · simp [main_run, h]
  · cases htok : read_api_token cfg.tokenFile with
    | none => simp [main_run, htok]
    | some tok => simp [main_run, htok, h]

/-- C7 witness: an empty credential file yields exit code 1 with an empty
event trace — before any scan or network activity — and no work done. -/
theorem fatal_preconditions_abort_witness :
    main_run
        { gpxDirExists := true, csvExists := true, tokenFile := some ""
          header := ["day", "fulcrum_id", "geometry"]
          rows := [["d1", "rec-1", "old"]]
          files := ["d1.gpx"]
          parse := fun _ => [("1.5", "2.5")]
          api := apiOK }
      = { exitCode := 1, trace := [], rows := [["d1", "rec-1", "old"]]
          updated := 0, saved := false } :=
  fatal_preconditions_abort
    { gpxDirExists := true, csvExists := true, tokenFile := some ""
      header := ["day", "fulcrum_id", "geometry"]
      rows := [["d1", "rec-1", "old"]]
      files := ["d1.gpx"]
      parse := fun _ => [("1.5", "2.5")]
      api := apiOK }
    (Or.inr (Or.inr (Or.inl (by decide))))

/-- Modelled from the spec: "case-insensitive extension match" — a file name
matches the track extension case-insensitively when its lowercased name ends
in `.gpx`. -/
def matches_ext_ci (f : String) : Bool :=
  ".gpx".data.isSuffixOf (f.data.map Char.toLower)

/-- C9 counterexample: `2024-01-01.Gpx` matches the track extension
case-insensitively, yet a directory holding only that file yields no
candidates — the scan only accepts the exact spellings `.gpx` and `.GPX`. -/
theorem gpx_candidates_not_case_insensitive :
    matches_ext_ci "2024-01-01.Gpx" = true
    ∧ gpx_candidates ["2024-01-01.Gpx"] = [] := by
  constructor <;> decide

/-- C9 amended: a file is a candidate iff it is a directory entry whose name
ends exactly in `.gpx` or exactly in `.GPX`, and the per-file loop runs over
a name-sorted permutation of the candidates, so the run order is
deterministic for a given directory content. -/
theorem gpx_candidates_exact_ext_sorted (files : List String) (f : String) :
    (f ∈ gpx_candidates files ↔
      f ∈ files ∧ (".gpx".data.isSuffixOf f.data ∨ ".GPX".data.isSuffixOf f.data))
    ∧ List.Pairwise (fun a b : String => a ≤ b) (processing_order files)
    ∧ (processing_order files).Perm (gpx_candidates files) := by
  refine ⟨?_, ?_, List.mergeSort_perm _ _⟩
  · constructor
    · intro hf
      rcases List.mem_append.mp hf with hm | hm <;>
        rcases List.mem_filter.mp hm with ⟨hin, hsuf⟩
      · exact ⟨hin, Or.inl hsuf⟩
      · exact ⟨hin, Or.inr hsuf⟩
    · rintro ⟨hin, hsuf | hsuf⟩
      · exact List.mem_append.mpr (Or.inl (List.mem_filter.mpr ⟨hin, hsuf⟩))
      · exact List.mem_append.mpr (Or.inr (List.mem_filter.mpr ⟨hin, hsuf⟩))
  · have hs := @List.sorted_mergeSort String
      (fun a b : String => decide (a ≤ b))
      (fun a b c hab hbc =>
        decide_eq_true (le_trans (of_decide_eq_true hab) (of_decide_eq_true hbc)))
      (fun a b => by
        rw [Bool.or_eq_true]
        rcases le_total a b with h | h
        · exact Or.inl (decide_eq_true h)
        · exact Or.inr (decide_eq_true h))
      (gpx_candidates files)
    exact hs.imp (fun h => of_decide_eq_true h)
